import Mathlib

/-!
Verification of the analytical core of `thesis_streamlit_app.py`, a
rainfall-extremes dashboard: annual-maxima extraction
(`df["Rainfall_mm"].resample("Y").max().dropna()`), extreme-event
thresholding (`df[df["Rainfall_mm"] > threshold]`), GEV return-level
computation (`gev.ppf(1 - 1/return_period, shape, loc, scale)`), the
flood-risk classifier, and the CSV export.

Rainfall amounts come from a CSV file, so they are modelled as rationals;
the fitted GEV parameters and the quantile arithmetic are real-valued.
The scipy fit (`gev.fit`) is an external library call and is modelled as
an abstract function parameter of the pipeline.
-/

namespace Thesis

/-- One row of the rainfall table: a calendar date (year plus ordinal day
within the year, which together stand for the `Date` timestamp) and the
`Rainfall_mm` value. -/
structure Row where
  year : Int
  day : Nat
  rain : ℚ
deriving DecidableEq, Repr

/-- Date-key comparison used by `df.sort_values("Date")`. -/
def dateLe (a b : Row) : Bool :=
  decide (a.year < b.year) || (decide (a.year = b.year) && decide (a.day ≤ b.day))

/-- `df = df.sort_values("Date")` (line 35 of the script). -/
def sort_values (df : List Row) : List Row :=
  df.mergeSort dateLe

/-- `extreme_events = df[df["Rainfall_mm"] > threshold]` (line 44). -/
def extreme_events (df : List Row) (threshold : ℚ) : List Row :=
  df.filter (fun r => decide (threshold < r.rain))

/-- Maximum of a list of values, as `Series.max()` computes it (none on an
empty group, mirroring pandas NaN). -/
def listMax {α : Type} [LinearOrder α] : List α → Option α
  | [] => none
  | x :: xs =>
    match listMax xs with
    | none => some x
    | some m => some (max x m)

/-- Minimum of a list of values. -/
def listMin {α : Type} [LinearOrder α] : List α → Option α
  | [] => none
  | x :: xs =>
    match listMin xs with
    | none => some x
    | some m => some (min x m)

/-- The maximum rainfall among the rows of one calendar year (`none` when
the year has no row, i.e. the NaN that `dropna` removes). -/
def yearMax (df : List Row) (y : Int) : Option ℚ :=
  listMax ((df.filter (fun r => decide (r.year = y))).map Row.rain)

/-- The consecutive year bins `lo, lo+1, ..., hi` that `resample("Y")`
produces between the first and last date of the index. -/
def yearSpan (lo hi : Int) : List Int :=
  (List.range (hi + 1 - lo).toNat).map (fun i : ℕ => lo + (i : Int))

/-- `annual_max = df["Rainfall_mm"].resample("Y").max().dropna()`
(line 52): one bin per year from the earliest to the latest year of the
index, the maximum within each bin, and the empty (NaN) bins dropped. -/
def annual_max (df : List Row) : List (Int × ℚ) :=
  match listMin (df.map Row.year), listMax (df.map Row.year) with
  | some lo, some hi =>
      (yearSpan lo hi).filterMap (fun y => (yearMax df y).map (fun m => (y, m)))
  | _, _ => []

/-- `extreme_events.to_csv(index=True)` (line 78): the exported rows keep
the `Date` index column (year, day) alongside the rainfall value. -/
def export_rows (df : List Row) (threshold : ℚ) : List ((Int × Nat) × ℚ) :=
  (extreme_events df threshold).map (fun r => ((r.year, r.day), r.rain))

theorem listMax_eq_none_iff {α : Type} [LinearOrder α] {l : List α} :
    listMax l = none ↔ l = [] := by
  cases l with
  | nil => simp [listMax]
  | cons x xs =>
    rw [listMax]
    cases hx : listMax xs <;> simp

theorem listMax_mem {α : Type} [LinearOrder α] {l : List α} {m : α}
    (h : listMax l = some m) : m ∈ l := by
  induction l generalizing m with
  | nil => simp [listMax] at h
  | cons x xs ih =>
    rw [listMax] at h
    cases hx : listMax xs with
    | none => rw [hx] at h; simp at h; simp [h]
    | some m0 =>
      rw [hx] at h
      simp at h
      rcases max_choice x m0 with hc | hc
      · rw [← h, hc]; exact List.mem_cons_self x xs
      · rw [← h, hc]; exact List.mem_cons_of_mem x (ih hx)

theorem listMax_le {α : Type} [LinearOrder α] {l : List α} {m : α}
    (h : listMax l = some m) : ∀ x ∈ l, x ≤ m := by
  induction l generalizing m with
  | nil => simp
  | cons x xs ih =>
    rw [listMax] at h
    cases hx : listMax xs with
    | none =>
      rw [hx] at h
      simp at h
      rw [listMax_eq_none_iff] at hx
      subst hx
      simp [h]
    | some m0 =>
      rw [hx] at h
      simp at h
      intro z hz
      rcases List.mem_cons.mp hz with hzx | hzxs
      · rw [hzx, ← h]; exact le_max_left x m0
      · exact le_trans (ih hx z hzxs) (by rw [← h]; exact le_max_right x m0)

theorem listMin_le {α : Type} [LinearOrder α] {l : List α} {m : α}
    (h : listMin l = some m) : ∀ x ∈ l, m ≤ x := by
  induction l generalizing m with
  | nil => simp
  | cons x xs ih =>
    rw [listMin] at h
    cases hx : listMin xs with
    | none =>
      rw [hx] at h
      simp at h
      cases xs with
      | nil => simp [h]
      | cons y ys => rw [listMin] at hx; cases hy : listMin ys <;> simp [hy] at hx
    | some m0 =>
      rw [hx] at h
      simp at h
      intro z hz
      rcases List.mem_cons.mp hz with hzx | hzxs
      · rw [hzx, ← h]; exact min_le_left x m0
      · exact le_trans (by rw [← h]; exact min_le_right x m0) (ih hx z hzxs)

theorem listMax_perm {α : Type} [LinearOrder α] {l l' : List α}
    (h : l.Perm l') : listMax l = listMax l' := by
  induction h with
  | nil => rfl
  | cons x _ ih => rw [listMax, listMax, ih]
  | swap x y l =>
    rw [listMax, listMax, listMax, listMax]
    cases hl : listMax l with
    | none => simp [max_comm]
    | some m => simp [max_left_comm]
  | trans _ _ ih1 ih2 => exact ih1.trans ih2

theorem listMin_perm {α : Type} [LinearOrder α] {l l' : List α}
    (h : l.Perm l') : listMin l = listMin l' := by
  induction h with
  | nil => rfl
  | cons x _ ih => rw [listMin, listMin, ih]
  | swap x y l =>
    rw [listMin, listMin, listMin, listMin]
    cases hl : listMin l with
    | none => simp [min_comm]
    | some m => simp [min_left_comm]
  | trans _ _ ih1 ih2 => exact ih1.trans ih2

theorem listMin_eq_none_iff {α : Type} [LinearOrder α] {l : List α} :
    listMin l = none ↔ l = [] := by
  cases l with
  | nil => simp [listMin]
  | cons x xs =>
    rw [listMin]
    cases hx : listMin xs <;> simp

theorem mem_yearSpan {lo hi y : Int} : y ∈ yearSpan lo hi ↔ lo ≤ y ∧ y ≤ hi := by
  simp only [yearSpan, List.mem_map, List.mem_range]
  constructor
  · rintro ⟨i, hilt, rfl⟩
    constructor <;> omega
  · rintro ⟨h1, h2⟩
    exact ⟨(y - lo).toNat, by omega, by omega⟩

theorem yearSpan_nodup (lo hi : Int) : (yearSpan lo hi).Nodup := by
  have hinj : Function.Injective (fun i : ℕ => lo + (i : Int)) := by
    intro a b hab
    simp only [add_right_inj, Nat.cast_inj] at hab
    exact hab
  unfold yearSpan
  exact List.Nodup.map hinj (List.nodup_range _)

theorem yearMax_eq_some {df : List Row} {y : Int} {m : ℚ}
    (h : yearMax df y = some m) :
    (∃ r ∈ df, r.year = y ∧ r.rain = m) ∧ ∀ r ∈ df, r.year = y → r.rain ≤ m := by
  constructor
  · have hm := listMax_mem h
    simp only [List.mem_map, List.mem_filter, decide_eq_true_eq] at hm
    obtain ⟨r, ⟨hrdf, hry⟩, hrm⟩ := hm
    exact ⟨r, hrdf, hry, hrm⟩
  · intro r hr hry
    refine listMax_le h _ ?_
    simp only [List.mem_map, List.mem_filter, decide_eq_true_eq]
    exact ⟨r, ⟨hr, hry⟩, rfl⟩

theorem yearMax_isSome_of_mem {df : List Row} {r : Row} (hr : r ∈ df) :
    ∃ m, yearMax df r.year = some m := by
  cases hm : yearMax df r.year with
  | some m => exact ⟨m, rfl⟩
  | none =>
    exfalso
    rw [yearMax, listMax_eq_none_iff, List.map_eq_nil_iff, List.filter_eq_nil_iff] at hm
    exact hm r hr (by simp)

theorem mem_annual_max {df : List Row} {y : Int} {m : ℚ} :
    (y, m) ∈ annual_max df ↔ (∃ r ∈ df, r.year = y) ∧ yearMax df y = some m := by
  unfold annual_max
  cases hmin : listMin (df.map Row.year) with
  | none =>
    rw [listMin_eq_none_iff, List.map_eq_nil_iff] at hmin
    subst hmin
    simp
  | some lo =>
    cases hmax : listMax (df.map Row.year) with
    | none =>
      exfalso
      rw [listMax_eq_none_iff] at hmax
      rw [hmax] at hmin
      simp [listMin] at hmin
    | some hi =>
      constructor
      · intro hmem
        obtain ⟨a, haspan, hfa⟩ := List.mem_filterMap.mp hmem
        cases hv : yearMax df a with
        | none => rw [hv] at hfa; simp at hfa
        | some v =>
          rw [hv] at hfa
          simp at hfa
          obtain ⟨rfl, rfl⟩ := hfa
          obtain ⟨⟨r, hrdf, hry, -⟩, -⟩ := yearMax_eq_some hv
          exact ⟨⟨r, hrdf, hry⟩, hv⟩
      · rintro ⟨⟨r, hrdf, hry⟩, hv⟩
        apply List.mem_filterMap.mpr
        refine ⟨y, ?_, by rw [hv]; rfl⟩
        have hy : y ∈ df.map Row.year := List.mem_map.mpr ⟨r, hrdf, hry⟩
        exact mem_yearSpan.mpr ⟨listMin_le hmin y hy, listMax_le hmax y hy⟩

theorem nodup_keys_filterMap {α β : Type} {l : List α} {f : α → Option (α × β)}
    (hf : ∀ a p, f a = some p → p.1 = a) (hl : l.Nodup) :
    ((l.filterMap f).map Prod.fst).Nodup := by
  induction l with
  | nil => simp
  | cons x xs ih =>
    obtain ⟨hx, hxs⟩ := List.nodup_cons.mp hl
    rw [List.filterMap_cons]
    cases hfx : f x with
    | none => exact ih hxs
    | some p =>
      rw [List.map_cons]
      refine List.nodup_cons.mpr ⟨?_, ih hxs⟩
      intro hmem
      obtain ⟨q, hq, hq1⟩ := List.mem_map.mp hmem
      obtain ⟨b, hb, hfb⟩ := List.mem_filterMap.mp hq
      have hbq : q.1 = b := hf b q hfb
      have hpx : p.1 = x := hf x p hfx
      have hbx : b = x := by rw [← hbq, hq1, hpx]
      exact hx (hbx ▸ hb)

theorem annual_max_nodup_keys (df : List Row) :
    ((annual_max df).map Prod.fst).Nodup := by
  unfold annual_max
  cases hmin : listMin (df.map Row.year) with
  | none => simp
  | some lo =>
    cases hmax : listMax (df.map Row.year) with
    | none => simp
    | some hi =>
      refine nodup_keys_filterMap ?_ (yearSpan_nodup lo hi)
      intro a p hp
      obtain ⟨v, -, hv⟩ := Option.map_eq_some.mp hp
      rw [← hv]

theorem yearMax_perm {df df' : List Row} (h : df.Perm df') (y : Int) :
    yearMax df y = yearMax df' y :=
  listMax_perm ((h.filter _).map _)

theorem annual_max_perm {df df' : List Row} (h : df.Perm df') :
    annual_max df = annual_max df' := by
  have hyears : (df.map Row.year).Perm (df'.map Row.year) := h.map _
  have hfun : (fun y => (yearMax df y).map (fun m => (y, m)))
      = (fun y => (yearMax df' y).map (fun m => (y, m))) := by
    funext y
    rw [yearMax_perm h]
  unfold annual_max
  rw [← listMin_perm hyears, ← listMax_perm hyears]
  cases listMin (df.map Row.year) <;> cases listMax (df.map Row.year) <;>
    simp only [hfun]

/-- scipy's GEV quantile function
`genextreme.ppf(q, c, loc, scale) = loc + scale * standard_ppf(q)`, with
`standard_ppf(q) = -log(-log q)` for shape `c = 0` and
`(1 - (-log q)^c) / c` otherwise. -/
noncomputable def gev_ppf (c loc scale q : ℝ) : ℝ :=
  if c = 0 then loc + scale * (-Real.log (-Real.log q))
  else loc + scale * ((1 - (-Real.log q) ^ c) / c)

/-- scipy's GEV cumulative distribution function
`genextreme.cdf(x, c, loc, scale) = exp(-standard_t((x - loc)/scale))`,
with `standard_t(z) = exp(-z)` for shape `c = 0` and `(1 - c*z)^(1/c)`
otherwise. -/
noncomputable def gev_cdf (c loc scale x : ℝ) : ℝ :=
  if c = 0 then Real.exp (-Real.exp (-((x - loc) / scale)))
  else Real.exp (-((1 - c * ((x - loc) / scale)) ^ (1 / c)))

/-- `return_level = gev.ppf(1 - 1/return_period, shape, loc, scale)`
(line 69 of the script). -/
noncomputable def return_level (c loc scale T : ℝ) : ℝ :=
  gev_ppf c loc scale (1 - 1 / T)

/-- `risk_level = "High" if return_level > threshold else "Moderate" if
return_level > (threshold * 0.75) else "Low"` (line 74 of the script). -/
noncomputable def risk_level (rl threshold : ℝ) : String :=
  if rl > threshold then "High"
  else if rl > threshold * 0.75 then "Moderate"
  else "Low"

/-- The values the script derives from one upload and one setting of the
two sliders. -/
structure PipelineOutput where
  table : List Row
  annualMaxima : List (Int × ℚ)
  params : ℝ × ℝ × ℝ
  returnLevel : ℝ
  risk : String
  download : List ((Int × Nat) × ℚ)

/-- The script's full top-to-bottom computation (lines 35-78): sort the
series by date, filter the extreme events, extract annual maxima, fit the
GEV parameters (`gev.fit` is a scipy routine, taken as an abstract
function argument), compute the return level, classify the risk, and
build the CSV export. -/
noncomputable def pipeline (fit : List ℚ → ℝ × ℝ × ℝ) (df : List Row)
    (threshold : ℚ) (T : ℝ) : PipelineOutput :=
  let sorted := sort_values df
  let am := annual_max sorted
  let p := fit (am.map Prod.snd)
  let rl := return_level p.1 p.2.1 p.2.2 T
  { table := extreme_events sorted threshold
    annualMaxima := am
    params := p
    returnLevel := rl
    risk := risk_level rl (threshold : ℝ)
    download := export_rows sorted threshold }

/-- A stand-in deterministic fit used to instantiate theorems at concrete
inputs. -/
noncomputable def constFit : List ℚ → ℝ × ℝ × ℝ :=
  fun _ => (0, 0, 1)

/-- C1: for every rainfall series, `annual_max` (the embedding of
`df["Rainfall_mm"].resample("Y").max().dropna()`) has exactly one entry
per distinct calendar year present in the input — no duplicate years, a
year appears iff some row has that year (so empty years are absent, not
zero-filled) — and each entry's value is attained by a row of that year
and bounds every value observed in that year, i.e. it is the true
maximum. -/
theorem annual_max_correct (df : List Row) :
    ((annual_max df).map Prod.fst).Nodup
    ∧ (∀ y : Int, (∃ m, (y, m) ∈ annual_max df) ↔ y ∈ df.map Row.year)
    ∧ ∀ y m, (y, m) ∈ annual_max df →
        (∃ r ∈ df, r.year = y ∧ r.rain = m) ∧ ∀ r ∈ df, r.year = y → r.rain ≤ m := by
  refine ⟨annual_max_nodup_keys df, ?_, ?_⟩
  · intro y
    constructor
    · rintro ⟨m, hm⟩
      obtain ⟨⟨r, hrdf, hry⟩, -⟩ := mem_annual_max.mp hm
      exact List.mem_map.mpr ⟨r, hrdf, hry⟩
    · intro hy
      obtain ⟨r, hrdf, hry⟩ := List.mem_map.mp hy
      obtain ⟨m, hm⟩ := yearMax_isSome_of_mem hrdf
      rw [hry] at hm
      exact ⟨m, mem_annual_max.mpr ⟨⟨r, hrdf, hry⟩, hm⟩⟩
  · intro y m hm
    obtain ⟨-, hv⟩ := mem_annual_max.mp hm
    exact yearMax_eq_some hv

/-- C6: the extreme-event table consists of exactly the input records
whose rainfall strictly exceeds the threshold, and the downloadable
export contains exactly those records with the timestamp (year, day)
column included alongside the rainfall value. -/
theorem extreme_events_correct (df : List Row) (threshold : ℚ) :
    (∀ r : Row, r ∈ extreme_events df threshold ↔ r ∈ df ∧ threshold < r.rain)
    ∧ ∀ d v, (d, v) ∈ export_rows df threshold ↔
        ∃ r ∈ df, threshold < r.rain ∧ r.year = d.1 ∧ r.day = d.2 ∧ r.rain = v := by
  constructor
  · intro r
    simp [extreme_events, List.mem_filter]
  · intro d v
    simp only [export_rows, List.mem_map, extreme_events, List.mem_filter,
      decide_eq_true_eq, Prod.ext_iff]
    constructor
    · rintro ⟨r, ⟨hrdf, hrth⟩, ⟨hy, hd⟩, hv⟩
      exact ⟨r, hrdf, hrth, hy, hd, hv⟩
    · rintro ⟨r, hrdf, hrth, hy, hd, hv⟩
      exact ⟨r, ⟨hrdf, hrth⟩, ⟨hy, hd⟩, hv⟩

/-- C7: the full pipeline (sort, threshold filter, annual-maxima
extraction, fit, quantile, classification, export) is a deterministic
function of the uploaded series and the two slider parameters: two runs
on identical inputs produce identical outputs in every component. -/
theorem pipeline_deterministic (fit : List ℚ → ℝ × ℝ × ℝ) (df df' : List Row)
    (threshold threshold' : ℚ) (T T' : ℝ)
    (hdf : df = df') (hthr : threshold = threshold') (hT : T = T') :
    pipeline fit df threshold T = pipeline fit df' threshold' T' := by
  subst hdf
  subst hthr
  subst hT
  rfl

/-- Witness for C7 at a concrete input. -/
theorem pipeline_deterministic_witness :
    pipeline constFit [⟨2000, 1, 5⟩] 100 10 = pipeline constFit [⟨2000, 1, 5⟩] 100 10 :=
  pipeline_deterministic constFit [⟨2000, 1, 5⟩] [⟨2000, 1, 5⟩] 100 100 10 10 rfl rfl rfl

/-- C8: the annual maxima, the fitted parameters and the return level do
not depend on the extreme-event threshold slider: two runs that differ
only in the threshold agree on all three. -/
theorem pipeline_threshold_independent (fit : List ℚ → ℝ × ℝ × ℝ) (df : List Row)
    (threshold₁ threshold₂ : ℚ) (T : ℝ) :
    (pipeline fit df threshold₁ T).annualMaxima = (pipeline fit df threshold₂ T).annualMaxima
    ∧ (pipeline fit df threshold₁ T).params = (pipeline fit df threshold₂ T).params
    ∧ (pipeline fit df threshold₁ T).returnLevel = (pipeline fit df threshold₂ T).returnLevel :=
  ⟨rfl, rfl, rfl⟩

/-- C10: the annual maxima, and therefore the fitted parameters and the
return level, are invariant under any permutation of the input rows: the
script sorts by date first and per-year maxima are order-independent. -/
theorem pipeline_perm_invariant (fit : List ℚ → ℝ × ℝ × ℝ) {df df' : List Row}
    (threshold : ℚ) (T : ℝ) (h : df.Perm df') :
    (pipeline fit df threshold T).annualMaxima = (pipeline fit df' threshold T).annualMaxima
    ∧ (pipeline fit df threshold T).params = (pipeline fit df' threshold T).params
    ∧ (pipeline fit df threshold T).returnLevel = (pipeline fit df' threshold T).returnLevel := by
  have hs : (sort_values df).Perm (sort_values df') :=
    ((List.mergeSort_perm df dateLe).trans h).trans (List.mergeSort_perm df' dateLe).symm
  have ham : annual_max (sort_values df) = annual_max (sort_values df') :=
    annual_max_perm hs
  simp only [pipeline]
  rw [ham]
  exact ⟨rfl, rfl, rfl⟩

/-- Witness for C10 at a concrete two-row series and its transposition. -/
theorem pipeline_perm_invariant_witness :
    (pipeline constFit [⟨2000, 1, 5⟩, ⟨2000, 2, 7⟩] 100 10).annualMaxima
        = (pipeline constFit [⟨2000, 2, 7⟩, ⟨2000, 1, 5⟩] 100 10).annualMaxima
    ∧ (pipeline constFit [⟨2000, 1, 5⟩, ⟨2000, 2, 7⟩] 100 10).params
        = (pipeline constFit [⟨2000, 2, 7⟩, ⟨2000, 1, 5⟩] 100 10).params
    ∧ (pipeline constFit [⟨2000, 1, 5⟩, ⟨2000, 2, 7⟩] 100 10).returnLevel
        = (pipeline constFit [⟨2000, 2, 7⟩, ⟨2000, 1, 5⟩] 100 10).returnLevel :=
  pipeline_perm_invariant constFit 100 10
    (List.Perm.swap (⟨2000, 2, 7⟩ : Row) (⟨2000, 1, 5⟩ : Row) [])

/-- C2: the risk classifier is total over the reals and, for a positive
threshold, returns "High" exactly when the return level exceeds the
threshold, "Moderate" exactly when it lies in (threshold·0.75,
threshold], and "Low" exactly when it is at most threshold·0.75. -/
theorem risk_level_correct (rl threshold : ℝ) (hthr : 0 < threshold) :
    (risk_level rl threshold = "High" ↔ threshold < rl)
    ∧ (risk_level rl threshold = "Moderate" ↔ threshold * 0.75 < rl ∧ rl ≤ threshold)
    ∧ (risk_level rl threshold = "Low" ↔ rl ≤ threshold * 0.75) := by
  have h34 : threshold * 0.75 < threshold := by nlinarith
  unfold risk_level
  by_cases h1 : rl > threshold
  · rw [if_pos h1]
    refine ⟨⟨fun _ => h1, fun _ => rfl⟩, ?_, ?_⟩
    · constructor
      · intro he
        exact absurd he (by decide)
      · rintro ⟨-, h2⟩
        exact absurd h2 (not_le.mpr h1)
    · constructor
      · intro he
        exact absurd he (by decide)
      · intro h2
        exact absurd h2 (not_le.mpr (by linarith))
  · rw [if_neg h1]
    by_cases h2 : rl > threshold * 0.75
    · rw [if_pos h2]
      have hle : rl ≤ threshold := not_lt.mp h1
      refine ⟨?_, ⟨fun _ => ⟨h2, hle⟩, fun _ => rfl⟩, ?_⟩
      · constructor
        · intro he
          exact absurd he (by decide)
        · intro hlt
          exact absurd hlt h1
      · constructor
        · intro he
          exact absurd he (by decide)
        · intro hle2
          exact absurd hle2 (not_le.mpr h2)
    · rw [if_neg h2]
      have hle2 : rl ≤ threshold * 0.75 := not_lt.mp h2
      refine ⟨?_, ?_, ⟨fun _ => hle2, fun _ => rfl⟩⟩
      · constructor
        · intro he
          exact absurd he (by decide)
        · intro hlt
          exact absurd hlt h1
      · constructor
        · intro he
          exact absurd he (by decide)
        · rintro ⟨hgt, -⟩
          exact absurd hgt h2

/-- Witness for C2 at a concrete return level and threshold. -/
theorem risk_level_correct_witness :
    (0:ℝ) < 4
    ∧ ((risk_level 5 4 = "High" ↔ (4:ℝ) < 5)
      ∧ (risk_level 5 4 = "Moderate" ↔ (4:ℝ) * 0.75 < 5 ∧ (5:ℝ) ≤ 4)
      ∧ (risk_level 5 4 = "Low" ↔ (5:ℝ) ≤ 4 * 0.75)) :=
  ⟨by norm_num, risk_level_correct 5 4 (by norm_num)⟩

/-- C4 counterexample: with threshold 4 (positive) and return level
exactly threshold · 0.75 = 3, the classifier returns "Low", not
"Moderate" — the code's comparison `return_level > threshold * 0.75` is
strict, so the lower Moderate boundary is exclusive. -/
theorem risk_level_lower_boundary_counterexample :
    (0:ℝ) < 4 ∧ (3:ℝ) = 4 * 0.75 ∧ risk_level 3 4 = "Low" := by
  refine ⟨by norm_num, by norm_num, ?_⟩
  unfold risk_level
  rw [if_neg (by norm_num), if_neg (by norm_num)]

/-- C4 amended: for a positive threshold, a return level exactly equal to
the threshold is classified "Moderate" (the upper boundary is inclusive),
while a return level exactly equal to threshold · 0.75 is classified
"Low" (the lower Moderate boundary is exclusive). -/
theorem risk_level_boundary (threshold : ℝ) (h : 0 < threshold) :
    risk_level threshold threshold = "Moderate"
    ∧ risk_level (threshold * 0.75) threshold = "Low" := by
  constructor
  · unfold risk_level
    rw [if_neg (lt_irrefl threshold), if_pos (by nlinarith)]
  · unfold risk_level
    rw [if_neg (not_lt.mpr (by nlinarith : threshold * 0.75 ≤ threshold)),
      if_neg (lt_irrefl (threshold * 0.75))]

/-- Witness for the amended C4 at threshold 4. -/
theorem risk_level_boundary_witness :
    (0:ℝ) < 4 ∧ (risk_level 4 4 = "Moderate" ∧ risk_level (4 * 0.75) 4 = "Low") :=
  ⟨by norm_num, risk_level_boundary 4 (by norm_num)⟩

theorem gev_cdf_ppf (c loc scale q : ℝ) (hscale : 0 < scale)
    (hq0 : 0 < q) (hq1 : q < 1) :
    gev_cdf c loc scale (gev_ppf c loc scale q) = q := by
  have hL : 0 < -Real.log q := by
    have := Real.log_neg hq0 hq1
    linarith
  have hsne : scale ≠ 0 := ne_of_gt hscale
  unfold gev_ppf gev_cdf
  by_cases hc : c = 0
  · rw [if_pos hc, if_pos hc]
    have h2 : (loc + scale * (-Real.log (-Real.log q)) - loc) / scale
        = -Real.log (-Real.log q) := by
      field_simp
      ring
    rw [h2, neg_neg, Real.exp_log hL, neg_neg, Real.exp_log hq0]
  · rw [if_neg hc, if_neg hc]
    have h2 : (loc + scale * ((1 - (-Real.log q) ^ c) / c) - loc) / scale
        = (1 - (-Real.log q) ^ c) / c := by
      field_simp
      ring
    rw [h2]
    have h3 : 1 - c * ((1 - (-Real.log q) ^ c) / c) = (-Real.log q) ^ c := by
      field_simp
    rw [h3]
    have h4 : ((-Real.log q) ^ c) ^ (1 / c : ℝ) = -Real.log q := by
      rw [← Real.rpow_mul (le_of_lt hL), mul_one_div_cancel hc, Real.rpow_one]
    rw [h4, neg_neg, Real.exp_log hq0]

/-- C3: for every fitted distribution with positive scale and every
return period T > 1, the value the script computes via
`gev.ppf(1 - 1/return_period, ...)` is the true GEV quantile at
probability 1 − 1/T: applying the GEV cumulative distribution function to
it gives back exactly 1 − 1/T. -/
theorem return_level_eq_quantile (c loc scale T : ℝ) (hscale : 0 < scale) (hT : 1 < T) :
    gev_cdf c loc scale (return_level c loc scale T) = 1 - 1 / T := by
  have hT0 : 0 < T := lt_trans one_pos hT
  have hq0 : 0 < 1 - 1 / T := by
    have h1 : 1 / T < 1 := by rw [div_lt_one hT0]; exact hT
    linarith
  have hq1 : 1 - 1 / T < 1 := by
    have h1 : 0 < 1 / T := by positivity
    linarith
  unfold return_level
  exact gev_cdf_ppf c loc scale (1 - 1 / T) hscale hq0 hq1

/-- Witness for C3 at shape 1, location 0, scale 1, return period 2. -/
theorem return_level_eq_quantile_witness :
    (0:ℝ) < 1 ∧ (1:ℝ) < 2
    ∧ gev_cdf 1 0 1 (return_level 1 0 1 2) = 1 - 1 / 2 :=
  ⟨by norm_num, by norm_num, return_level_eq_quantile 1 0 1 2 (by norm_num) (by norm_num)⟩

theorem gev_ppf_mono (c loc scale : ℝ) (hscale : 0 < scale) {q₁ q₂ : ℝ}
    (h0 : 0 < q₁) (h12 : q₁ ≤ q₂) (h1 : q₂ < 1) :
    gev_ppf c loc scale q₁ ≤ gev_ppf c loc scale q₂ := by
  have hq₂0 : 0 < q₂ := lt_of_lt_of_le h0 h12
  have hL₂ : 0 < -Real.log q₂ := by
    have := Real.log_neg hq₂0 h1
    linarith
  have hL₁ : 0 < -Real.log q₁ := by
    have := Real.log_neg h0 (lt_of_le_of_lt h12 h1)
    linarith
  have hL21 : -Real.log q₂ ≤ -Real.log q₁ := by
    have := (Real.log_le_log_iff h0 hq₂0).mpr h12
    linarith
  unfold gev_ppf
  by_cases hc : c = 0
  · rw [if_pos hc, if_pos hc]
    have hlog : Real.log (-Real.log q₂) ≤ Real.log (-Real.log q₁) :=
      (Real.log_le_log_iff hL₂ hL₁).mpr hL21
    have hmul := mul_le_mul_of_nonneg_left (neg_le_neg hlog) hscale.le
    linarith
  · rw [if_neg hc, if_neg hc]
    have key : (1 - (-Real.log q₁) ^ c) / c ≤ (1 - (-Real.log q₂) ^ c) / c := by
      rcases lt_or_gt_of_ne hc with hneg | hpos
      · have hr : (-Real.log q₁) ^ c ≤ (-Real.log q₂) ^ c :=
          Real.rpow_le_rpow_of_nonpos hL₂ hL21 hneg.le
        rw [div_eq_mul_inv, div_eq_mul_inv]
        exact mul_le_mul_of_nonpos_right (by linarith) (inv_nonpos.mpr hneg.le)
      · have hr : (-Real.log q₂) ^ c ≤ (-Real.log q₁) ^ c :=
          Real.rpow_le_rpow hL₂.le hL21 hpos.le
        exact (div_le_div_iff_of_pos_right hpos).mpr (by linarith)
    have hmul := mul_le_mul_of_nonneg_left key hscale.le
    linarith

/-- C5: for a fixed fitted distribution with positive scale, the computed
return level is non-decreasing in the return period: 1 < T₁ ≤ T₂ implies
return_level T₁ ≤ return_level T₂. -/
theorem return_level_mono (c loc scale T₁ T₂ : ℝ) (hscale : 0 < scale)
    (h1 : 1 < T₁) (h12 : T₁ ≤ T₂) :
    return_level c loc scale T₁ ≤ return_level c loc scale T₂ := by
  have hT₁0 : 0 < T₁ := lt_trans one_pos h1
  have hT₂0 : 0 < T₂ := lt_of_lt_of_le hT₁0 h12
  unfold return_level
  apply gev_ppf_mono c loc scale hscale
  · have h : 1 / T₁ < 1 := by
      rw [div_lt_one hT₁0]
      exact h1
    linarith
  · have h : 1 / T₂ ≤ 1 / T₁ := one_div_le_one_div_of_le hT₁0 h12
    linarith
  · have h : 0 < 1 / T₂ := by positivity
    linarith

/-- Witness for C5 at shape 1, location 0, scale 1, T₁ = 2, T₂ = 3. -/
theorem return_level_mono_witness :
    (0:ℝ) < 1 ∧ (1:ℝ) < 2 ∧ (2:ℝ) ≤ 3
    ∧ return_level 1 0 1 2 ≤ return_level 1 0 1 3 :=
  ⟨by norm_num, by norm_num, by norm_num,
    return_level_mono 1 0 1 2 3 (by norm_num) (by norm_num) (by norm_num)⟩

/-- C9 counterexample: scale 1 is positive, yet with shape 0 and location
−1 the return level at T = 2 is −1 − log(log 2) < 0, so "scale > 0 alone
implies a strictly positive return level at T = 2" is false. -/
theorem return_level_T2_counterexample :
    (0:ℝ) < 1 ∧ return_level 0 (-1) 1 2 < 0 := by
  refine ⟨one_pos, ?_⟩
  unfold return_level gev_ppf
  rw [if_pos rfl]
  rw [show (1:ℝ) - 1 / 2 = 1 / 2 by norm_num]
  rw [show (1:ℝ) / 2 = 2⁻¹ by norm_num, Real.log_inv]
  have h1 : Real.exp (-1) < Real.log 2 := by
    calc Real.exp (-1) < 0.3678794412 := Real.exp_neg_one_lt_d9
    _ < 0.6931471803 := by norm_num
    _ < Real.log 2 := Real.log_two_gt_d9
  have h2 : (-1:ℝ) < Real.log (Real.log 2) := by
    have h3 := Real.log_lt_log (Real.exp_pos (-1)) h1
    rwa [Real.log_exp] at h3
  rw [neg_neg]
  linarith

/-- C9 amended: for every fitted distribution with positive scale and
non-negative location, the return level at return period T = 2 is a
(finite real and) strictly positive value. -/
theorem return_level_T2_pos (c loc scale : ℝ) (hscale : 0 < scale) (hloc : 0 ≤ loc) :
    0 < return_level c loc scale 2 := by
  unfold return_level gev_ppf
  rw [show (1:ℝ) - 1 / 2 = 1 / 2 by norm_num]
  rw [show (1:ℝ) / 2 = 2⁻¹ by norm_num, Real.log_inv, neg_neg]
  have hl2a : 0 < Real.log 2 := Real.log_pos one_lt_two
  have hl2b : Real.log 2 < 1 := by
    calc Real.log 2 < 0.6931471808 := Real.log_two_lt_d9
    _ < 1 := by norm_num
  by_cases hc : c = 0
  · rw [if_pos hc]
    have hneg : Real.log (Real.log 2) < 0 := Real.log_neg hl2a hl2b
    have hpos : 0 < scale * (-Real.log (Real.log 2)) := mul_pos hscale (by linarith)
    linarith
  · rw [if_neg hc]
    have key : 0 < (1 - Real.log 2 ^ c) / c := by
      rcases lt_or_gt_of_ne hc with hneg | hpos
      · have h1 : 1 < Real.log 2 ^ c := by
          rw [Real.one_lt_rpow_iff_of_pos hl2a]
          exact Or.inr ⟨hl2b, hneg⟩
        rw [div_pos_iff]
        exact Or.inr ⟨by linarith, hneg⟩
      · have h1 : Real.log 2 ^ c < 1 := Real.rpow_lt_one hl2a.le hl2b hpos
        exact div_pos (by linarith) hpos
    have hmul := mul_pos hscale key
    linarith

/-- Witness for the amended C9 at shape 0, location 0, scale 1. -/
theorem return_level_T2_pos_witness :
    (0:ℝ) < 1 ∧ (0:ℝ) ≤ 0 ∧ 0 < return_level 0 0 1 2 :=
  ⟨by norm_num, le_refl 0, return_level_T2_pos 0 0 1 (by norm_num) (le_refl 0)⟩

end Thesis
